import Mathlib

/-!
Shallow embedding of the Soroban timelock contract
(`examples/advanced/02-timelock/src/lib.rs`) and proofs of its
specified properties.

Modelling conventions:
- `Bytes` (operation identifiers) are byte lists, `Address` principals are
  naturals, `u64` timestamps are naturals; the addition in `queue` is the
  one place overflow matters and is modelled explicitly against `2 ^ 64`.
- The persistent storage map `Operation(id) -> execute_at` is an
  association list; the instance slot `Admin` is an `Option Address`.
- Rust panics and host traps abort the invocation with every storage
  write rolled back, so each contract entry point is a total function
  returning `Except Error (ContractState × List Event)`: an `error`
  result leaves the caller with the unchanged pre-state and no events.
- `require_auth` is modelled by membership of the admin address in the
  set of principals that authorized the current invocation.
-/

namespace Timelock

/-- Operation identifiers: opaque byte sequences (`Bytes` in the source). -/
abbrev Bytes := List Nat

/-- Principal identities (`Address` in the source). -/
abbrev Address := Nat

/-- `MIN_DELAY` from the source: minimum delay (in seconds) that must pass
before execution. -/
def MIN_DELAY : Nat := 60

/-- `MAX_DELAY` from the source: maximum delay (in seconds) allowed when
queuing (24 hours). -/
def MAX_DELAY : Nat := 86400

/-- Number of values of a `u64`: timestamps live in `[0, U64_SIZE)`. -/
def U64_SIZE : Nat := 2 ^ 64

/-- `OperationState` from the source: possible states of an operation. -/
inductive OperationState
  /-- Not found in storage. -/
  | Unknown
  /-- Queued, waiting for delay to pass. -/
  | Pending
  /-- Delay has passed, ready to execute. -/
  | Ready
  /-- Already executed (removed from storage). -/
  | Done
  deriving DecidableEq

/-- The failure outcomes of the contract's entry points: each panic or
host trap in the source, named as in the spec's error taxonomy. -/
inductive Error
  /-- panic "Already initialized". -/
  | AlreadyInitialized
  /-- expect "Not initialized" on the missing `Admin` slot. -/
  | NotInitialized
  /-- `require_auth` host trap when the invocation lacks the admin's
  authorization. -/
  | Unauthorized
  /-- panic "Delay out of range". -/
  | DelayOutOfRange
  /-- panic "Operation already queued". -/
  | AlreadyQueued
  /-- expect/panic "Operation not found". -/
  | NotFound
  /-- panic "Too early". -/
  | TooEarly
  /-- Trap of the checked timestamp addition in `queue` (see `checkedAdd`). -/
  | Overflow
  deriving DecidableEq

/-- Events published by the contract (`env.events().publish(...)` sites). -/
inductive Event
  /-- topic `queued`, payload `(operation_id, execute_at)`. -/
  | queued (operation_id : Bytes) (execute_at : Nat)
  /-- topic `executed`, payload `(operation_id, now)`. -/
  | executed (operation_id : Bytes) (now : Nat)
  /-- topic `cancelled`, payload `operation_id`. -/
  | cancelled (operation_id : Bytes)
  deriving DecidableEq

/-- The host environment of one invocation: the ledger timestamp and the
principals whose authorization the invocation carries (`require_auth a`
succeeds exactly when `a ∈ auths`). -/
structure Env where
  timestamp : Nat
  auths : List Address
  deriving DecidableEq

/-- Contract storage: the instance slot `DataKey::Admin` and the
persistent map `DataKey::Operation(id) -> execute_at`. -/
structure ContractState where
  admin : Option Address
  ops : List (Bytes × Nat)
  deriving DecidableEq

deriving instance DecidableEq for Except

/-- `env.storage().persistent().has(&DataKey::Operation(k))`. -/
def opsHas : List (Bytes × Nat) → Bytes → Bool
  | [], _ => false
  | (k', _) :: rest, k => if k' = k then true else opsHas rest k

/-- `env.storage().persistent().get(&DataKey::Operation(k))`. -/
def opsGet : List (Bytes × Nat) → Bytes → Option Nat
  | [], _ => none
  | (k', v) :: rest, k => if k' = k then some v else opsGet rest k

/-- `env.storage().persistent().set(&DataKey::Operation(k), &v)`:
overwrite the existing entry or append a fresh one. -/
def opsSet : List (Bytes × Nat) → Bytes → Nat → List (Bytes × Nat)
  | [], k, v => [(k, v)]
  | (k', v') :: rest, k, v =>
    if k' = k then (k, v) :: rest else (k', v') :: opsSet rest k v

/-- `env.storage().persistent().remove(&DataKey::Operation(k))`. -/
def opsRemove : List (Bytes × Nat) → Bytes → List (Bytes × Nat)
  | [], _ => []
  | (k', v') :: rest, k =>
    if k' = k then opsRemove rest k else (k', v') :: opsRemove rest k

/-- The shared prologue of `queue`, `execute` and `cancel` in the source:
read the `Admin` slot (`expect("Not initialized")`) and call
`admin.require_auth()`. -/
def requireAdmin (env : Env) (s : ContractState) : Except Error Address :=
  match s.admin with
  | none => .error .NotInitialized
  | some a => if a ∈ env.auths then .ok a else .error .Unauthorized

/-- `TimelockContract::initialize` from the source: set the admin slot,
failing if it is already populated. (The source name is kept in spirit;
this definition is the whole body of that entry point.) -/
def init (s : ContractState) (admin : Address) : Except Error ContractState :=
  match s.admin with
  | some _ => .error .AlreadyInitialized
  | none => .ok { s with admin := some admin }

/-- Modelled from the spec: the build profile that fixes the behaviour of
the `u64` addition `env.ledger().timestamp() + delay` in `queue` is not
part of the sources here, and the spec requires that an overflowing sum
be rejected rather than silently wrapped; so the addition is modelled as
checked against the `u64` range, trapping on overflow. -/
def checkedAdd (a b : Nat) : Except Error Nat :=
  if a + b < U64_SIZE then .ok (a + b) else .error .Overflow

/-- `TimelockContract::queue` from the source: admin auth, delay range
check, double-queue check, then persist `execute_at = now + delay` and
publish a `queued` event. -/
def queue (env : Env) (s : ContractState) (operation_id : Bytes) (delay : Nat) :
    Except Error (ContractState × List Event) :=
  match requireAdmin env s with
  | .error e => .error e
  | .ok _ =>
    if delay < MIN_DELAY ∨ delay > MAX_DELAY then .error .DelayOutOfRange
    else if opsHas s.ops operation_id then .error .AlreadyQueued
    else
      match checkedAdd env.timestamp delay with
      | .error e => .error e
      | .ok execute_at =>
        .ok ({ s with ops := opsSet s.ops operation_id execute_at },
          [Event.queued operation_id execute_at])

/-- `TimelockContract::execute` from the source: admin auth, look up the
record (`NotFound` when absent), reject when `now < execute_at`, remove
the record so it cannot be replayed, publish an `executed` event. -/
def execute (env : Env) (s : ContractState) (operation_id : Bytes) :
    Except Error (ContractState × List Event) :=
  match requireAdmin env s with
  | .error e => .error e
  | .ok _ =>
    match opsGet s.ops operation_id with
    | none => .error .NotFound
    | some execute_at =>
      if env.timestamp < execute_at then .error .TooEarly
      else
        .ok ({ s with ops := opsRemove s.ops operation_id },
          [Event.executed operation_id env.timestamp])

/-- `TimelockContract::cancel` from the source: admin auth, `NotFound`
when no record exists, remove the record, publish a `cancelled` event. -/
def cancel (env : Env) (s : ContractState) (operation_id : Bytes) :
    Except Error (ContractState × List Event) :=
  match requireAdmin env s with
  | .error e => .error e
  | .ok _ =>
    if opsHas s.ops operation_id then
      .ok ({ s with ops := opsRemove s.ops operation_id },
        [Event.cancelled operation_id])
    else .error .NotFound

/-- `TimelockContract::get_execute_at` from the source: the scheduled
execution timestamp for an operation, or 0 if not queued. -/
def get_execute_at (s : ContractState) (operation_id : Bytes) : Nat :=
  (opsGet s.ops operation_id).getD 0

/-- `TimelockContract::get_state` from the source: the current state of
an operation. -/
def get_state (env : Env) (s : ContractState) (operation_id : Bytes) :
    OperationState :=
  match opsGet s.ops operation_id with
  | none => OperationState.Unknown
  | some execute_at =>
    if env.timestamp < execute_at then OperationState.Pending
    else OperationState.Ready

/-! ### Storage lemmas -/

/-- After removing a key, looking it up yields nothing. -/
theorem opsGet_opsRemove (ops : List (Bytes × Nat)) (k : Bytes) :
    opsGet (opsRemove ops k) k = none := by
  induction ops with
  | nil => rfl
  | cons p rest ih =>
    obtain ⟨k', v⟩ := p
    by_cases h : k' = k <;> simp [opsRemove, opsGet, h, ih]

/-- After removing a key, the `has` test on it is false. -/
theorem opsHas_opsRemove (ops : List (Bytes × Nat)) (k : Bytes) :
    opsHas (opsRemove ops k) k = false := by
  induction ops with
  | nil => rfl
  | cons p rest ih =>
    obtain ⟨k', v⟩ := p
    by_cases h : k' = k <;> simp [opsRemove, opsHas, h, ih]

/-- After setting a key, looking it up yields the stored value. -/
theorem opsGet_opsSet (ops : List (Bytes × Nat)) (k : Bytes) (v : Nat) :
    opsGet (opsSet ops k v) k = some v := by
  induction ops with
  | nil => simp [opsSet, opsGet]
  | cons p rest ih =>
    obtain ⟨k', v'⟩ := p
    by_cases h : k' = k <;> simp [opsSet, opsGet, h, ih]

/-- After setting a key, the `has` test on it is true. -/
theorem opsHas_opsSet (ops : List (Bytes × Nat)) (k : Bytes) (v : Nat) :
    opsHas (opsSet ops k v) k = true := by
  induction ops with
  | nil => simp [opsSet, opsHas]
  | cons p rest ih =>
    obtain ⟨k', v'⟩ := p
    by_cases h : k' = k <;> simp [opsSet, opsHas, h, ih]

/-- The admin prologue reads only the instance slot, so replacing the
operation map does not affect it. -/
theorem requireAdmin_ops (env : Env) (s : ContractState)
    (o : List (Bytes × Nat)) :
    requireAdmin env { s with ops := o } = requireAdmin env s := rfl

/-- Inversion of a successful `queue`: the guards all passed, the sum
stayed in the `u64` range, the new state stores `now + delay` under the
identifier, and exactly one `queued` event was published. -/
theorem queue_ok_inv (env : Env) (s s' : ContractState) (id : Bytes)
    (d : Nat) (evs : List Event)
    (h : queue env s id d = .ok (s', evs)) :
    s' = { s with ops := opsSet s.ops id (env.timestamp + d) } ∧
    evs = [Event.queued id (env.timestamp + d)] ∧
    opsHas s.ops id = false ∧
    MIN_DELAY ≤ d ∧ d ≤ MAX_DELAY ∧
    env.timestamp + d < U64_SIZE := by
  unfold queue at h
  split at h
  · exact absurd h (by simp)
  · split at h
    · exact absurd h (by simp)
    next hrange =>
      split at h
      · exact absurd h (by simp)
      next hhas =>
        split at h
        next e heq => exact absurd h (by simp)
        next x heq =>
          unfold checkedAdd at heq
          split at heq
          next hov =>
            injection heq with hx
            subst hx
            push_neg at hrange
            simp only [Except.ok.injEq, Prod.mk.injEq] at h
            refine ⟨h.1.symm, h.2.symm, ?_, hrange.1, hrange.2, hov⟩
            simpa using hhas
          next hov => exact absurd heq (by simp)

/-- Inversion of a successful `execute`: the remaining obligations of the
success path; in particular the record is removed and the admin slot is
untouched. -/
theorem execute_ok_inv (env : Env) (s s' : ContractState) (id : Bytes)
    (evs : List Event)
    (h : execute env s id = .ok (s', evs)) :
    s' = { s with ops := opsRemove s.ops id } ∧
    evs = [Event.executed id env.timestamp] := by
  unfold execute at h
  split at h
  · exact absurd h (by simp)
  · split at h
    · exact absurd h (by simp)
    · split at h
      · exact absurd h (by simp)
      · simp only [Except.ok.injEq, Prod.mk.injEq] at h
        exact ⟨h.1.symm, h.2.symm⟩

/-- Inversion of a successful `cancel`: the record is removed and the
admin slot is untouched. -/
theorem cancel_ok_inv (env : Env) (s s' : ContractState) (id : Bytes)
    (evs : List Event)
    (h : cancel env s id = .ok (s', evs)) :
    s' = { s with ops := opsRemove s.ops id } ∧
    evs = [Event.cancelled id] := by
  unfold cancel at h
  split at h
  · exact absurd h (by simp)
  · split at h
    · simp only [Except.ok.injEq, Prod.mk.injEq] at h
      exact ⟨h.1.symm, h.2.symm⟩
    · exact absurd h (by simp)

/-- The admin prologue can only fail with `NotInitialized` or
`Unauthorized`. -/
theorem requireAdmin_error (env : Env) (s : ContractState) (e : Error)
    (h : requireAdmin env s = .error e) :
    e = Error.NotInitialized ∨ e = Error.Unauthorized := by
  unfold requireAdmin at h
  split at h
  · injection h with h
    exact Or.inl h.symm
  · split at h
    · exact absurd h (by simp)
    · injection h with h
      exact Or.inr h.symm

/-! ### Claims -/

/-- Claim C1: execution is exactly-once per queued instance — when a live
record scheduled at `t` exists and the current time has reached `t`, a
successful `execute` removes the record from storage, and a subsequent
`execute` against the same identifier (with no intervening re-queue)
fails with `NotFound` and produces no new state or events. -/
theorem execute_exactly_once (env₁ env₂ : Env) (s : ContractState)
    (id : Bytes) (t : Nat) (a₁ a₂ : Address)
    (hget : opsGet s.ops id = some t)
    (htime : t ≤ env₁.timestamp)
    (hauth₁ : requireAdmin env₁ s = .ok a₁)
    (hauth₂ : requireAdmin env₂ s = .ok a₂) :
    execute env₁ s id =
      .ok ({ s with ops := opsRemove s.ops id },
        [Event.executed id env₁.timestamp]) ∧
    opsGet (opsRemove s.ops id) id = none ∧
    execute env₂ { s with ops := opsRemove s.ops id } id =
      .error .NotFound := by
  refine ⟨?_, opsGet_opsRemove s.ops id, ?_⟩
  · simp [execute, hauth₁, hget, Nat.not_lt.mpr htime]
  · have h2 : requireAdmin env₂ { s with ops := opsRemove s.ops id } = .ok a₂ := by
      rw [requireAdmin_ops]
      exact hauth₂
    simp [execute, h2, opsGet_opsRemove]

/-- Witness for C1: concrete record `([1], 100)` executed at time 100 and
replayed. -/
theorem execute_exactly_once_witness :
    execute ⟨100, [7]⟩ ⟨some 7, [([1], 100)]⟩ [1] =
      .ok (⟨some 7, []⟩, [Event.executed [1] 100]) ∧
    opsGet (opsRemove [([1], 100)] [1]) [1] = none ∧
    execute ⟨100, [7]⟩ ⟨some 7, []⟩ [1] = .error .NotFound :=
  execute_exactly_once ⟨100, [7]⟩ ⟨100, [7]⟩ ⟨some 7, [([1], 100)]⟩ [1] 100 7 7
    (by decide) (by decide) (by decide) (by decide)

/-- Claim C3: `execute` strictly before the scheduled time fails with
`TooEarly`, and the record is unchanged and still queryable —
`get_execute_at` still returns the scheduled time and `get_state` still
returns `Pending`. -/
theorem execute_too_early (env : Env) (s : ContractState) (id : Bytes)
    (t : Nat) (a : Address)
    (hget : opsGet s.ops id = some t)
    (htime : env.timestamp < t)
    (hauth : requireAdmin env s = .ok a) :
    execute env s id = .error .TooEarly ∧
    get_execute_at s id = t ∧
    get_state env s id = OperationState.Pending := by
  refine ⟨?_, ?_, ?_⟩
  · simp [execute, hauth, hget, htime]
  · simp [get_execute_at, hget]
  · simp [get_state, hget, htime]

/-- Witness for C3: record scheduled at 1060 probed at time 1000. -/
theorem execute_too_early_witness :
    execute ⟨1000, [7]⟩ ⟨some 7, [([1], 1060)]⟩ [1] = .error .TooEarly ∧
    get_execute_at ⟨some 7, [([1], 1060)]⟩ [1] = 1060 ∧
    get_state ⟨1000, [7]⟩ ⟨some 7, [([1], 1060)]⟩ [1] = OperationState.Pending :=
  execute_too_early ⟨1000, [7]⟩ ⟨some 7, [([1], 1060)]⟩ [1] 1060 7
    (by decide) (by decide) (by decide)

/-- Claim C4: `get_state` never returns `Done`; it returns `Unknown` when
no record exists, `Pending` when a record exists and `now < execute_at`,
and `Ready` when a record exists and `now >= execute_at` (the boundary
`now = execute_at` yields `Ready`). -/
theorem get_state_trichotomy (env : Env) (s : ContractState) (id : Bytes)
    (t : Nat) :
    get_state env s id ≠ OperationState.Done ∧
    (opsGet s.ops id = none → get_state env s id = OperationState.Unknown) ∧
    (opsGet s.ops id = some t → env.timestamp < t →
      get_state env s id = OperationState.Pending) ∧
    (opsGet s.ops id = some t → t ≤ env.timestamp →
      get_state env s id = OperationState.Ready) := by
  refine ⟨?_, fun h => by simp [get_state, h],
    fun h h2 => by simp [get_state, h, h2],
    fun h h2 => by simp [get_state, h, Nat.not_lt.mpr h2]⟩
  unfold get_state
  cases opsGet s.ops id with
  | none => simp
  | some u => by_cases hlt : env.timestamp < u <;> simp [hlt]

/-- Witness for C4: an absent record, a pending record at time 4, and a
record at the inclusive boundary time 5. -/
theorem get_state_trichotomy_witness :
    get_state ⟨5, []⟩ ⟨some 7, []⟩ [1] = OperationState.Unknown ∧
    get_state ⟨4, []⟩ ⟨some 7, [([1], 5)]⟩ [1] = OperationState.Pending ∧
    get_state ⟨5, []⟩ ⟨some 7, [([1], 5)]⟩ [1] = OperationState.Ready :=
  ⟨(get_state_trichotomy ⟨5, []⟩ ⟨some 7, []⟩ [1] 0).2.1 (by decide),
   (get_state_trichotomy ⟨4, []⟩ ⟨some 7, [([1], 5)]⟩ [1] 5).2.2.1 (by decide)
     (by decide),
   (get_state_trichotomy ⟨5, []⟩ ⟨some 7, [([1], 5)]⟩ [1] 5).2.2.2 (by decide)
     (by decide)⟩

/-- Claim C5: an authorized `queue` with `delay` outside
`[MIN_DELAY, MAX_DELAY]` fails with `DelayOutOfRange` (producing no new
state), and a `queue` with `delay` inside the closed interval never fails
with `DelayOutOfRange`. -/
theorem queue_delay_bounds (env : Env) (s : ContractState) (id : Bytes)
    (delay : Nat) (a : Address) :
    (requireAdmin env s = .ok a → delay < MIN_DELAY ∨ MAX_DELAY < delay →
      queue env s id delay = .error .DelayOutOfRange) ∧
    (MIN_DELAY ≤ delay → delay ≤ MAX_DELAY →
      queue env s id delay ≠ .error .DelayOutOfRange) := by
  constructor
  · intro hauth hout
    have : delay < MIN_DELAY ∨ delay > MAX_DELAY := hout
    simp [queue, hauth, this]
  · intro h1 h2 hcontra
    unfold queue at hcontra
    split at hcontra
    next e heq =>
      injection hcontra with he
      subst he
      rcases requireAdmin_error env s _ heq with h | h <;> simp at h
    next a' heq =>
      split at hcontra
      next hr => rcases hr with hr | hr <;> omega
      next hr =>
        split at hcontra
        · exact absurd hcontra (by simp)
        · split at hcontra
          next e heq2 =>
            unfold checkedAdd at heq2
            split at heq2
            · exact absurd heq2 (by simp)
            · injection heq2 with he
              subst he
              exact absurd hcontra (by simp)
          next x heq2 => exact absurd hcontra (by simp)

/-- Witness for C5: delay 10 is rejected with `DelayOutOfRange`, delay 60
is not. -/
theorem queue_delay_bounds_witness :
    queue ⟨1000, [7]⟩ ⟨some 7, []⟩ [1] 10 = .error .DelayOutOfRange ∧
    queue ⟨1000, [7]⟩ ⟨some 7, []⟩ [1] 60 ≠ .error .DelayOutOfRange :=
  ⟨(queue_delay_bounds ⟨1000, [7]⟩ ⟨some 7, []⟩ [1] 10 7).1 (by decide)
     (by decide),
   (queue_delay_bounds ⟨1000, [7]⟩ ⟨some 7, []⟩ [1] 60 7).2 (by decide)
     (by decide)⟩

/-- Claim C2 (overflow behaviour modelled from the spec, see
`checkedAdd`): whenever `now + delay` would leave the `u64` range,
`queue` never succeeds — so no wrapped scheduled time is ever stored —
and on the path where every other guard passes it fails with the
overflow trap. -/
theorem queue_rejects_overflow (env : Env) (s : ContractState) (id : Bytes)
    (delay : Nat) (a : Address) (r : ContractState × List Event)
    (hover : U64_SIZE ≤ env.timestamp + delay) :
    queue env s id delay ≠ .ok r ∧
    (requireAdmin env s = .ok a → MIN_DELAY ≤ delay → delay ≤ MAX_DELAY →
      opsHas s.ops id = false → queue env s id delay = .error .Overflow) := by
  constructor
  · intro hok
    obtain ⟨-, -, -, -, -, h6⟩ := queue_ok_inv env s r.1 id delay r.2 hok
    exact absurd h6 (Nat.not_lt.mpr hover)
  · intro hauth h1 h2 hhas
    have hnr : ¬(delay < MIN_DELAY ∨ delay > MAX_DELAY) := by
      push_neg
      exact ⟨h1, h2⟩
    simp [queue, hauth, hnr, hhas, checkedAdd, Nat.not_lt.mpr hover]

/-- Witness for C2: a timestamp 60 below the end of the `u64` range and a
delay of 60. -/
theorem queue_rejects_overflow_witness :
    queue ⟨2 ^ 64 - 60, [7]⟩ ⟨some 7, []⟩ [1] 60 ≠ .ok (⟨some 7, []⟩, []) ∧
    queue ⟨2 ^ 64 - 60, [7]⟩ ⟨some 7, []⟩ [1] 60 = .error .Overflow :=
  ⟨(queue_rejects_overflow ⟨2 ^ 64 - 60, [7]⟩ ⟨some 7, []⟩ [1] 60 7
      (⟨some 7, []⟩, []) (by decide)).1,
   (queue_rejects_overflow ⟨2 ^ 64 - 60, [7]⟩ ⟨some 7, []⟩ [1] 60 7
      (⟨some 7, []⟩, []) (by decide)).2 (by decide) (by decide) (by decide)
     (by decide)⟩

/-- Counterexample to claim C6 as stated: after a successful
`queue([1], 60)` at time 1000, a second `queue([1], 10)` with an
out-of-range delay fails with `DelayOutOfRange` and not with
`AlreadyQueued` — the source checks the delay range before the
double-queue condition, so the second call does not fail with
`AlreadyQueued` "regardless of d'". -/
theorem queue_double_cex :
    queue ⟨1000, [7]⟩ ⟨some 7, []⟩ [1] 60 =
      .ok (⟨some 7, [([1], 1060)]⟩, [Event.queued [1] 1060]) ∧
    queue ⟨1000, [7]⟩ ⟨some 7, [([1], 1060)]⟩ [1] 10 =
      .error .DelayOutOfRange ∧
    queue ⟨1000, [7]⟩ ⟨some 7, [([1], 1060)]⟩ [1] 10 ≠
      .error .AlreadyQueued :=
  ⟨by decide, by decide, by decide⟩

/-- Claim C6 amended: after a successful `queue(id, d)`, a second
authorized `queue(id, d')` always fails and writes nothing — with
`AlreadyQueued` whenever `d'` is within `[MIN_DELAY, MAX_DELAY]`, and
with `DelayOutOfRange` (checked first by the source) when `d'` is out of
range. -/
theorem queue_no_double (env env' : Env) (s s' : ContractState)
    (id : Bytes) (d d' : Nat) (evs : List Event) (a : Address)
    (hq : queue env s id d = .ok (s', evs))
    (hauth : requireAdmin env' s' = .ok a) :
    (MIN_DELAY ≤ d' → d' ≤ MAX_DELAY →
      queue env' s' id d' = .error .AlreadyQueued) ∧
    (d' < MIN_DELAY ∨ MAX_DELAY < d' →
      queue env' s' id d' = .error .DelayOutOfRange) := by
  obtain ⟨hs', -, -, -, -, -⟩ := queue_ok_inv env s s' id d evs hq
  subst hs'
  have hhas : opsHas (opsSet s.ops id (env.timestamp + d)) id = true :=
    opsHas_opsSet _ _ _
  constructor
  · intro h1 h2
    have hnr : ¬(d' < MIN_DELAY ∨ d' > MAX_DELAY) := by
      push_neg
      exact ⟨h1, h2⟩
    simp [queue, hauth, hnr, hhas]
  · intro hr
    have hr' : d' < MIN_DELAY ∨ d' > MAX_DELAY := hr
    simp [queue, hauth, hr']

/-- Witness for the amended C6: a queued record re-queued with an
in-range delay (90) and an out-of-range delay (7). -/
theorem queue_no_double_witness :
    queue ⟨2000, [7]⟩ ⟨some 7, [([1], 1060)]⟩ [1] 90 =
      .error .AlreadyQueued ∧
    queue ⟨2000, [7]⟩ ⟨some 7, [([1], 1060)]⟩ [1] 7 =
      .error .DelayOutOfRange :=
  ⟨(queue_no_double ⟨1000, [7]⟩ ⟨2000, [7]⟩ ⟨some 7, []⟩
      ⟨some 7, [([1], 1060)]⟩ [1] 60 90 [Event.queued [1] 1060] 7
      (by decide) (by decide)).1 (by decide) (by decide),
   (queue_no_double ⟨1000, [7]⟩ ⟨2000, [7]⟩ ⟨some 7, []⟩
      ⟨some 7, [([1], 1060)]⟩ [1] 60 7 [Event.queued [1] 1060] 7
      (by decide) (by decide)).2 (by decide)⟩

/-- Claim C7: the administrator slot is set exactly once — the first
`init` (the source's `initialize` entry point) writes it, any later call
fails with `AlreadyInitialized`, and no successful `queue`, `execute` or
`cancel` changes the stored administrator (the read-only queries return
values only, never a new state). -/
theorem admin_set_once (env : Env) (s s' : ContractState)
    (a admin0 : Address) (id : Bytes) (d : Nat) (evs : List Event) :
    (s.admin = none → init s a = .ok { s with admin := some a }) ∧
    (s.admin = some admin0 → init s a = .error .AlreadyInitialized) ∧
    (queue env s id d = .ok (s', evs) → s'.admin = s.admin) ∧
    (execute env s id = .ok (s', evs) → s'.admin = s.admin) ∧
    (cancel env s id = .ok (s', evs) → s'.admin = s.admin) := by
  refine ⟨fun h => by simp [init, h], fun h => by simp [init, h], ?_, ?_, ?_⟩
  · intro h
    obtain ⟨hs', -⟩ := queue_ok_inv env s s' id d evs h
    rw [hs']
  · intro h
    obtain ⟨hs', -⟩ := execute_ok_inv env s s' id evs h
    rw [hs']
  · intro h
    obtain ⟨hs', -⟩ := cancel_ok_inv env s s' id evs h
    rw [hs']

/-- Witness for C7: the slot is written once, a second write fails, and
concrete successful `queue`/`execute`/`cancel` calls preserve it. -/
theorem admin_set_once_witness :
    init ⟨none, []⟩ 7 = .ok ⟨some 7, []⟩ ∧
    init ⟨some 7, []⟩ 9 = .error .AlreadyInitialized ∧
    (⟨some 7, [([1], 1060)]⟩ : ContractState).admin =
      (⟨some 7, []⟩ : ContractState).admin ∧
    (⟨some 7, []⟩ : ContractState).admin =
      (⟨some 7, [([1], 1060)]⟩ : ContractState).admin ∧
    (⟨some 7, []⟩ : ContractState).admin =
      (⟨some 7, [([1], 1060)]⟩ : ContractState).admin :=
  ⟨(admin_set_once ⟨0, []⟩ ⟨none, []⟩ ⟨none, []⟩ 7 0 [1] 60 []).1 rfl,
   (admin_set_once ⟨0, []⟩ ⟨some 7, []⟩ ⟨none, []⟩ 9 7 [1] 60 []).2.1 rfl,
   (admin_set_once ⟨1000, [7]⟩ ⟨some 7, []⟩ ⟨some 7, [([1], 1060)]⟩ 0 7 [1]
      60 [Event.queued [1] 1060]).2.2.1 (by decide),
   (admin_set_once ⟨1060, [7]⟩ ⟨some 7, [([1], 1060)]⟩ ⟨some 7, []⟩ 0 7 [1]
      60 [Event.executed [1] 1060]).2.2.2.1 (by decide),
   (admin_set_once ⟨1000, [7]⟩ ⟨some 7, [([1], 1060)]⟩ ⟨some 7, []⟩ 0 7 [1]
      60 [Event.cancelled [1]]).2.2.2.2 (by decide)⟩

/-- Claim C8: every mutating call is gated before any state change — with
an unpopulated admin slot each of `queue`/`execute`/`cancel` fails with
`NotInitialized`, and with a populated slot whose admin has not
authorized the invocation each fails with `Unauthorized`; either error
result carries no new state and no events. -/
theorem auth_gate (env : Env) (s : ContractState) (id : Bytes) (d : Nat)
    (a : Address) :
    (s.admin = none →
      queue env s id d = .error .NotInitialized ∧
      execute env s id = .error .NotInitialized ∧
      cancel env s id = .error .NotInitialized) ∧
    (s.admin = some a → a ∉ env.auths →
      queue env s id d = .error .Unauthorized ∧
      execute env s id = .error .Unauthorized ∧
      cancel env s id = .error .Unauthorized) := by
  constructor
  · intro h
    have hra : requireAdmin env s = .error .NotInitialized := by
      simp [requireAdmin, h]
    exact ⟨by simp [queue, hra], by simp [execute, hra], by simp [cancel, hra]⟩
  · intro h hna
    have hra : requireAdmin env s = .error .Unauthorized := by
      simp [requireAdmin, h, hna]
    exact ⟨by simp [queue, hra], by simp [execute, hra], by simp [cancel, hra]⟩

/-- Witness for C8: an uninitialized state, and an initialized state
probed by an invocation that carries authorization only from principal 9
while the admin is 7. -/
theorem auth_gate_witness :
    (queue ⟨1000, [7]⟩ ⟨none, []⟩ [1] 60 = .error .NotInitialized ∧
      execute ⟨1000, [7]⟩ ⟨none, []⟩ [1] = .error .NotInitialized ∧
      cancel ⟨1000, [7]⟩ ⟨none, []⟩ [1] = .error .NotInitialized) ∧
    (queue ⟨1000, [9]⟩ ⟨some 7, []⟩ [1] 60 = .error .Unauthorized ∧
      execute ⟨1000, [9]⟩ ⟨some 7, []⟩ [1] = .error .Unauthorized ∧
      cancel ⟨1000, [9]⟩ ⟨some 7, []⟩ [1] = .error .Unauthorized) :=
  ⟨(auth_gate ⟨1000, [7]⟩ ⟨none, []⟩ [1] 60 0).1 rfl,
   (auth_gate ⟨1000, [9]⟩ ⟨some 7, []⟩ [1] 60 7).2 rfl (by decide)⟩

/-- Claim C9: `cancel` on a live record removes it — afterwards
`get_state` returns `Unknown` at any query time, indistinguishable from
never queued — and a later authorized `queue` of the same identifier with
any in-range (non-overflowing) delay succeeds exactly as for a fresh
identifier. -/
theorem cancel_clean (env env₂ env₃ : Env) (s : ContractState)
    (id : Bytes) (d : Nat) (a a₃ : Address)
    (hhas : opsHas s.ops id = true)
    (hauth : requireAdmin env s = .ok a)
    (hauth₃ : requireAdmin env₃ s = .ok a₃)
    (hd₁ : MIN_DELAY ≤ d) (hd₂ : d ≤ MAX_DELAY)
    (hov : env₃.timestamp + d < U64_SIZE) :
    cancel env s id =
      .ok ({ s with ops := opsRemove s.ops id }, [Event.cancelled id]) ∧
    get_state env₂ { s with ops := opsRemove s.ops id } id =
      OperationState.Unknown ∧
    queue env₃ { s with ops := opsRemove s.ops id } id d =
      .ok ({ s with
               ops := opsSet (opsRemove s.ops id) id (env₃.timestamp + d) },
        [Event.queued id (env₃.timestamp + d)]) := by
  refine ⟨?_, ?_, ?_⟩
  · simp [cancel, hauth, hhas]
  · simp [get_state, opsGet_opsRemove]
  · have h3 : requireAdmin env₃ { s with ops := opsRemove s.ops id } = .ok a₃ := by
      rw [requireAdmin_ops]
      exact hauth₃
    have hnr : ¬(d < MIN_DELAY ∨ d > MAX_DELAY) := by
      push_neg
      exact ⟨hd₁, hd₂⟩
    simp [queue, h3, hnr, opsHas_opsRemove, checkedAdd, hov]

/-- Witness for C9: record `([1], 1060)` cancelled at time 2000, queried,
and requeued with delay 60 at time 3000. -/
theorem cancel_clean_witness :
    cancel ⟨2000, [7]⟩ ⟨some 7, [([1], 1060)]⟩ [1] =
      .ok (⟨some 7, []⟩, [Event.cancelled [1]]) ∧
    get_state ⟨2000, []⟩ ⟨some 7, []⟩ [1] = OperationState.Unknown ∧
    queue ⟨3000, [7]⟩ ⟨some 7, []⟩ [1] 60 =
      .ok (⟨some 7, [([1], 3060)]⟩, [Event.queued [1] 3060]) :=
  cancel_clean ⟨2000, [7]⟩ ⟨2000, []⟩ ⟨3000, [7]⟩ ⟨some 7, [([1], 1060)]⟩
    [1] 60 7 7 (by decide) (by decide) (by decide) (by decide) (by decide)
    (by decide)

/-- Claim C10: `get_execute_at` returns the persisted scheduled time —
after a successful `queue(id, delay)` at time `now` it returns exactly
`now + delay` — and returns the sentinel 0 when no record exists. -/
theorem get_execute_at_spec (env : Env) (s s' : ContractState)
    (id : Bytes) (d t : Nat) (evs : List Event) :
    (queue env s id d = .ok (s', evs) →
      get_execute_at s' id = env.timestamp + d) ∧
    (opsGet s.ops id = some t → get_execute_at s id = t) ∧
    (opsGet s.ops id = none → get_execute_at s id = 0) := by
  refine ⟨?_, fun h => by simp [get_execute_at, h],
    fun h => by simp [get_execute_at, h]⟩
  intro h
  obtain ⟨hs', -⟩ := queue_ok_inv env s s' id d evs h
  subst hs'
  simp [get_execute_at, opsGet_opsSet]

/-- Witness for C10: a queue at time 1000 with delay 60 schedules 1060, a
live record reports its stored time, an absent record reports 0. -/
theorem get_execute_at_spec_witness :
    get_execute_at ⟨some 7, [([1], 1060)]⟩ [1] = 1000 + 60 ∧
    get_execute_at ⟨some 7, [([1], 1060)]⟩ [1] = 1060 ∧
    get_execute_at ⟨some 7, []⟩ [1] = 0 :=
  ⟨(get_execute_at_spec ⟨1000, [7]⟩ ⟨some 7, []⟩ ⟨some 7, [([1], 1060)]⟩
      [1] 60 0 [Event.queued [1] 1060]).1 (by decide),
   (get_execute_at_spec ⟨1000, [7]⟩ ⟨some 7, [([1], 1060)]⟩ ⟨some 7, []⟩
      [1] 60 1060 []).2.1 (by decide),
   (get_execute_at_spec ⟨1000, [7]⟩ ⟨some 7, []⟩ ⟨some 7, []⟩
      [1] 60 0 []).2.2 (by decide)⟩

end Timelock
